import Mathlib

/-!
Shallow embedding of the remnawave-node-go reconciliation core.

Go maps keyed by strings are embedded as association lists with unique-key
update semantics (`lookupA` / `insertA` / `eraseA`); Go's `map[string]struct{}`
sets become duplicate-free `List String` maintained by the operations.
External collaborators (the Xray engine reached through `pkg/xraycore` /
`pkg/xtls`, supervisord) are modelled as oracles: records of functions giving
the outcome of each engine call.  Everything else is translated directly from
the Go sources under `internal/services` and `pkg/hashedset`.
-/

namespace Remna

/-- Association-list lookup: first binding for the key, mirroring a Go map read. -/
def lookupA {α : Type} : List (String × α) → String → Option α
  | [], _ => none
  | p :: rest, key => if p.1 = key then some p.2 else lookupA rest key

/-- Association-list write, mirroring a Go map assignment: replace the existing
binding if present, otherwise append a fresh one. -/
def insertA {α : Type} : List (String × α) → String → α → List (String × α)
  | [], key, v => [(key, v)]
  | p :: rest, key, v => if p.1 = key then (key, v) :: rest else p :: insertA rest key v

/-- Association-list delete, mirroring Go's `delete(m, key)`. -/
def eraseA {α : Type} (l : List (String × α)) (key : String) : List (String × α) :=
  l.filter (fun p => p.1 ≠ key)

theorem lookupA_insertA_self {α : Type} (l : List (String × α)) (key : String) (v : α) :
    lookupA (insertA l key v) key = some v := by
  induction l with
  | nil => simp [insertA, lookupA]
  | cons p rest ih =>
    by_cases h : p.1 = key
    · simp [insertA, lookupA, h]
    · simp [insertA, lookupA, h, ih]

theorem lookupA_insertA_ne {α : Type} (l : List (String × α)) (key key' : String) (v : α)
    (h : key' ≠ key) : lookupA (insertA l key v) key' = lookupA l key' := by
  induction l with
  | nil => simp [insertA, lookupA, Ne.symm h]
  | cons p rest ih =>
    by_cases hp : p.1 = key
    · simp [insertA, lookupA, hp, Ne.symm h]
    · by_cases hp' : p.1 = key'
      · simp [insertA, lookupA, hp, hp', h]
      · simp [insertA, lookupA, hp, hp', ih]

theorem lookupA_eraseA_self {α : Type} (l : List (String × α)) (key : String) :
    lookupA (eraseA l key) key = none := by
  induction l with
  | nil => simp [eraseA, lookupA]
  | cons p rest ih =>
    by_cases hp : p.1 = key
    · simpa [eraseA, hp] using ih
    · simpa [eraseA, lookupA, hp] using ih

theorem lookupA_eraseA_ne {α : Type} (l : List (String × α)) (key key' : String)
    (h : key' ≠ key) : lookupA (eraseA l key) key' = lookupA l key' := by
  induction l with
  | nil => simp [eraseA, lookupA]
  | cons p rest ih =>
    by_cases hp : p.1 = key
    · simpa [eraseA, lookupA, hp, Ne.symm h] using ih
    · by_cases hp' : p.1 = key'
      · simp [eraseA, lookupA, hp, hp', h]
      · simpa [eraseA, lookupA, hp, hp'] using ih

/-! ## pkg/hashedset — the keyed fingerprint store -/

/-- `HashedSet` from `pkg/hashedset`: a map from keys to hex digests. -/
structure HashedSet where
  hashes : List (String × String)
  deriving DecidableEq, Repr

def HashedSet.new : HashedSet := ⟨[]⟩

/-- `GetHash`: stored digest for a key, if any. -/
def HashedSet.getHash (s : HashedSet) (key : String) : Option String :=
  lookupA s.hashes key

/-- `SetHashValue`: store a precomputed digest without recomputation. -/
def HashedSet.setHashValue (s : HashedSet) (key hash : String) : HashedSet :=
  ⟨insertA s.hashes key hash⟩

/-- `computeHash` serialises a value and digests it; serialisation can fail
(`json.Marshal` error), hence `Option`.  The digest itself is abstract: the
claims only depend on it being a function of the value. -/
def computeHashWith {α : Type} (digest : α → Option String) (v : α) : Option String :=
  digest v

/-- `HasChanged`: digest the value; error if serialisation fails, otherwise
`true` when the key is missing or the stored digest differs. -/
def HashedSet.hasChanged {α : Type} (digest : α → Option String) (s : HashedSet)
    (key : String) (v : α) : Option Bool :=
  match computeHashWith digest v with
  | none => none
  | some h =>
    match s.getHash key with
    | none => some true
    | some stored => some (stored ≠ h)

/-- `UpdateIfChanged`: store the new digest when missing or different,
reporting whether an update happened. -/
def HashedSet.updateIfChanged {α : Type} (digest : α → Option String) (s : HashedSet)
    (key : String) (v : α) : Option (Bool × HashedSet) :=
  match computeHashWith digest v with
  | none => none
  | some h =>
    match s.getHash key with
    | none => some (true, s.setHashValue key h)
    | some stored =>
      if stored ≠ h then some (true, s.setHashValue key h) else some (false, s)

/-! ## internal/services — InternalService (the state tracker) -/

/-- One entry of the control-plane fingerprint manifest
(`InboundHashItem` in `vision.go`). -/
structure InboundHashItem where
  tag : String
  hash : String
  usersCount : Nat
  deriving DecidableEq, Repr

/-- The fingerprint manifest (`InboundHashes` in `vision.go`). -/
structure InboundHashes where
  emptyConfig : String
  inbounds : List InboundHashItem
  deriving DecidableEq, Repr

/-- The mutable fields of `InternalService` that the verified operations read
and write (`vision.go`).  The inner `map[string]struct{}` sets become
duplicate-free lists. -/
structure InternalState where
  /-- `userInboundMap`: email → set of inbound tags. -/
  userInboundMap : List (String × List String)
  /-- `inboundHashSets`: per-inbound fingerprint stores. -/
  inboundHashSets : List (String × HashedSet)
  /-- `emptyConfigHash`: fingerprint of the config without users. -/
  emptyConfigHash : String
  /-- `xtlsConfigInbounds`: all known inbound tags. -/
  xtlsConfigInbounds : List String
  /-- `disableHashCheck` from `InternalConfig`. -/
  disableHashCheck : Bool
  deriving DecidableEq, Repr

/-- `AddXtlsConfigInbound`: add a tag to the known-inbounds set. -/
def InternalState.addXtlsConfigInbound (s : InternalState) (tag : String) : InternalState :=
  if tag ∈ s.xtlsConfigInbounds then s
  else { s with xtlsConfigInbounds := s.xtlsConfigInbounds ++ [tag] }

/-- `AddUserToInbound`: record that a user belongs to an inbound. -/
def InternalState.addUserToInbound (s : InternalState) (email tag : String) : InternalState :=
  let tags := (lookupA s.userInboundMap email).getD []
  let tags' := if tag ∈ tags then tags else tags ++ [tag]
  { s with userInboundMap := insertA s.userInboundMap email tags' }

/-- `RemoveUserFromInbound`: drop one tag from a user's membership set,
pruning the user entry when the set becomes empty. -/
def InternalState.removeUserFromInbound (s : InternalState) (email tag : String) : InternalState :=
  match lookupA s.userInboundMap email with
  | none => s
  | some tags =>
    let tags' := tags.filter (fun t => t ≠ tag)
    if tags'.isEmpty then { s with userInboundMap := eraseA s.userInboundMap email }
    else { s with userInboundMap := insertA s.userInboundMap email tags' }

/-- `IsNeedRestartCore` (`vision.go:444`): the early-return chain becomes a
short-circuit disjunction.  A missing `"users"` fingerprint reads as `""`,
exactly as Go's two-value map read does. -/
def InternalState.isNeedRestartCore (s : InternalState) (hashes : InboundHashes) : Bool :=
  s.disableHashCheck
  || (s.emptyConfigHash == "")
  || (s.emptyConfigHash != hashes.emptyConfig)
  || (hashes.inbounds.length != s.inboundHashSets.length)
  || hashes.inbounds.any (fun item =>
      match lookupA s.inboundHashSets item.tag with
      | none => true
      | some hs => ((hs.getHash "users").getD "") != item.hash)
  || s.inboundHashSets.any (fun p =>
      !(hashes.inbounds.any (fun item => item.tag == p.1)))

/-! ## internal/services/handler.go — HandlerService (the user mutator)

The embedded Xray engine (`pkg/xraycore`, outside the verified core) is an
oracle: `addUser`/`removeUser` give the outcome of the corresponding engine
call (`none` = success, `some msg` = error), folding in the credential
construction of `CreateTrojanUser`/`CreateVlessUser`/`CreateShadowsocksUser`. -/

/-- Protocol-specific credential object handed to the engine. -/
inductive XUser where
  | trojan (username password : String)
  | vless (username uuid flow : String)
  | shadowsocks (username password : String) (cipherType : Int)
  deriving DecidableEq, Repr

/-- Oracle for the engine adapter calls made by `HandlerService`. -/
structure EngineOracle where
  isRunning : Bool
  addUser : String → XUser → Option String
  removeUser : String → String → Option String

/-- Result shape shared by the user-mutation endpoints:
`{ success: bool, error: null | string }`. -/
structure OpResult where
  success : Bool
  error : Option String
  deriving DecidableEq, Repr

/-- `UserData` of the single-add request. -/
structure UserData where
  type : String
  tag : String
  username : String
  uuid : String
  password : String
  flow : String
  cipherType : Int
  ivCheck : Bool
  deriving DecidableEq, Repr

/-- `HashData` of the single-add request. -/
structure HashData where
  vlessUuid : String
  prevVlessUuid : String
  deriving DecidableEq, Repr

/-- `AddUserRequest`. -/
structure AddUserRequest where
  data : List UserData
  hashData : HashData
  deriving DecidableEq, Repr

/-- The `switch item.Type` of `AddUser`: which credential the engine gets, or
`none` for an unknown type (the Go loop `continue`s with no add and no error). -/
def mkXUser (item : UserData) : Option XUser :=
  match item.type with
  | "trojan" => some (.trojan item.username item.password)
  | "vless" => some (.vless item.username item.uuid item.flow)
  | "shadowsocks" => some (.shadowsocks item.username item.password item.cipherType)
  | _ => none

/-- Steps 1–2 of `AddUser` (`handler.go:152-177`): register every target tag,
then for every known tag remove the tracker membership for the prior identity
key when supplied, otherwise for the current one.  (The per-tag best-effort
engine removal has no tracker effect and its result is discarded.) -/
def addUserRemovalPhase (s : InternalState) (req : AddUserRequest) : InternalState :=
  let s1 := req.data.foldl (fun st item => st.addXtlsConfigInbound item.tag) s
  let removeKey :=
    if req.hashData.prevVlessUuid ≠ "" then req.hashData.prevVlessUuid
    else req.hashData.vlessUuid
  s1.xtlsConfigInbounds.foldl (fun st tag => st.removeUserFromInbound removeKey tag) s1

/-- Step 3 body of `AddUser`: one target item, threading
(state, successCount, lastError). -/
def addUserStep3 (eng : EngineOracle) (vlessUuid : String)
    (acc : InternalState × Nat × Option String) (item : UserData) :
    InternalState × Nat × Option String :=
  match mkXUser item with
  | none => acc
  | some xu =>
    match eng.addUser item.tag xu with
    | none => (acc.1.addUserToInbound vlessUuid item.tag, acc.2.1 + 1, acc.2.2)
    | some err => (acc.1, acc.2.1, some err)

/-- `HandlerService.AddUser` (`handler.go:138`). -/
def addUser (eng : EngineOracle) (s : InternalState) (req : AddUserRequest) :
    OpResult × InternalState :=
  if eng.isRunning = false then ({ success := false, error := some "Xray not running" }, s)
  else if req.data.isEmpty then ({ success := false, error := some "no user data provided" }, s)
  else
    let s2 := addUserRemovalPhase s req
    let r := req.data.foldl (addUserStep3 eng req.hashData.vlessUuid) (s2, 0, none)
    if r.2.1 > 0 then ({ success := true, error := none }, r.1)
    else
      match r.2.2 with
      | some err => ({ success := false, error := some err }, r.1)
      | none => ({ success := false, error := some "no users were added" }, r.1)

/-- `InboundData` of the batch-add request. -/
structure InboundData where
  type : String
  tag : String
  flow : String
  deriving DecidableEq, Repr

/-- `UserDataForBatch`. -/
structure UserDataForBatch where
  userId : String
  hashUuid : String
  vlessUuid : String
  trojanPassword : String
  ssPassword : String
  deriving DecidableEq, Repr

/-- `UserForBatch`. -/
structure UserForBatch where
  inboundData : List InboundData
  userData : UserDataForBatch
  deriving DecidableEq, Repr

/-- `AddUsersRequest`. -/
structure AddUsersRequest where
  affectedInboundTags : List String
  users : List UserForBatch
  deriving DecidableEq, Repr

/-- Credential construction in the batch add (`handler.go:343-365`);
shadowsocks always uses cipher 7 (chacha20-poly1305). -/
def mkXUserBatch (it : InboundData) (u : UserDataForBatch) : Option XUser :=
  match it.type with
  | "trojan" => some (.trojan u.userId u.trojanPassword)
  | "vless" => some (.vless u.userId u.vlessUuid it.flow)
  | "shadowsocks" => some (.shadowsocks u.userId u.ssPassword 7)
  | _ => none

/-- Per-user body of `AddUsers`: remove the user's membership (keyed by
`hashUuid`) from every known tag, then add to each target inbound, recording
membership (keyed by `vlessUuid`) on engine success only. -/
def addUsersPerUser (eng : EngineOracle) (st : InternalState) (user : UserForBatch) :
    InternalState :=
  let s1 := st.xtlsConfigInbounds.foldl
    (fun st tag => st.removeUserFromInbound user.userData.hashUuid tag) st
  user.inboundData.foldl (fun st it =>
    match mkXUserBatch it user.userData with
    | none => st
    | some xu =>
      match eng.addUser it.tag xu with
      | none => st.addUserToInbound user.userData.vlessUuid it.tag
      | some _ => st) s1

/-- `HandlerService.AddUsers` (`handler.go:308`): success is returned
unconditionally once the guard passes; per-user failures are only logged. -/
def addUsers (eng : EngineOracle) (s : InternalState) (req : AddUsersRequest) :
    OpResult × InternalState :=
  if eng.isRunning = false then ({ success := false, error := some "Xray not running" }, s)
  else
    let s1 := req.affectedInboundTags.foldl (fun st tag => st.addXtlsConfigInbound tag) s
    let s2 := req.users.foldl (addUsersPerUser eng) s1
    ({ success := true, error := none }, s2)

/-- `RemoveUserRequest` (username plus `hashData.vlessUuid`). -/
structure RemoveUserRequest where
  username : String
  vlessUuid : String
  deriving DecidableEq, Repr

/-- Per-tag body of `RemoveUser`/`RemoveUsers`: engine removal (counted),
then tracker membership removal, threading
(state, successCount, failCount, lastError). -/
def removeUserFold (eng : EngineOracle) (username key : String)
    (acc : InternalState × Nat × Nat × Option String) (tag : String) :
    InternalState × Nat × Nat × Option String :=
  match eng.removeUser tag username with
  | none => (acc.1.removeUserFromInbound key tag, acc.2.1 + 1, acc.2.2.1, acc.2.2.2)
  | some e => (acc.1.removeUserFromInbound key tag, acc.2.1, acc.2.2.1 + 1, some e)

/-- `HandlerService.RemoveUser` (`handler.go:412`). -/
def removeUser (eng : EngineOracle) (s : InternalState) (req : RemoveUserRequest) :
    OpResult × InternalState :=
  if eng.isRunning = false then ({ success := false, error := some "Xray not running" }, s)
  else if s.xtlsConfigInbounds.isEmpty then ({ success := true, error := none }, s)
  else
    let r := s.xtlsConfigInbounds.foldl
      (removeUserFold eng req.username req.vlessUuid) (s, 0, 0, none)
    if r.2.1 = 0 ∧ 0 < r.2.2.1 then
      ({ success := false, error := some (r.2.2.2.getD "all remove operations failed") }, r.1)
    else ({ success := true, error := none }, r.1)

/-- `RemoveUserItem` of the batch-remove request. -/
structure RemoveUserItem where
  userId : String
  hashUuid : String
  deriving DecidableEq, Repr

/-- `RemoveUsersRequest`. -/
structure RemoveUsersRequest where
  users : List RemoveUserItem
  deriving DecidableEq, Repr

/-- `HandlerService.RemoveUsers` (`handler.go:484`): the known-tag list is read
once before the loop. -/
def removeUsers (eng : EngineOracle) (s : InternalState) (req : RemoveUsersRequest) :
    OpResult × InternalState :=
  if eng.isRunning = false then ({ success := false, error := some "Xray not running" }, s)
  else if s.xtlsConfigInbounds.isEmpty then ({ success := true, error := none }, s)
  else
    let r := req.users.foldl (fun acc user =>
      s.xtlsConfigInbounds.foldl (removeUserFold eng user.userId user.hashUuid) acc)
      (s, 0, 0, none)
    if r.2.1 = 0 ∧ 0 < r.2.2.1 then
      ({ success := false, error := some (r.2.2.2.getD "all remove operations failed") }, r.1)
    else ({ success := true, error := none }, r.1)

/-! ## internal/services — VisionService (IP block/unblock rule mirror) -/

/-- Oracle for the Xray router reached through `pkg/xtls`: `available` is
whether `s.xtls.Router()` is non-nil; `addRule`/`removeRule` take
(ruleTag, ip) and give the call outcome. -/
structure RouterOracle where
  available : Bool
  addRule : String → String → Option String
  removeRule : String → String → Option String

/-- The mutable field of `VisionService`: the IP → ruleTag mirror. -/
structure VisionState where
  blockedIPs : List (String × String)
  deriving DecidableEq, Repr

/-- `VisionService.BlockIP` (`vision.go:63`).  `ipHash` abstracts the MD5
rule-tag derivation (`getIPHash`); the returned `Nat` counts the `AddRule`
calls the body issued. -/
def blockIP (ipHash : String → String) (o : RouterOracle) (s : VisionState) (ip : String) :
    OpResult × VisionState × Nat :=
  if (lookupA s.blockedIPs ip).isSome then ({ success := true, error := none }, s, 0)
  else
    let ruleTag := ipHash ip
    if o.available then
      match o.addRule ruleTag ip with
      | some err => ({ success := false, error := some err }, s, 1)
      | none =>
        ({ success := true, error := none }, ⟨insertA s.blockedIPs ip ruleTag⟩, 1)
    else
      ({ success := true, error := none }, ⟨insertA s.blockedIPs ip ruleTag⟩, 0)

/-- `VisionService.UnblockIP` (`vision.go:114`); the `Nat` counts `RemoveRule`
calls issued. -/
def unblockIP (o : RouterOracle) (s : VisionState) (ip : String) :
    OpResult × VisionState × Nat :=
  match lookupA s.blockedIPs ip with
  | none => ({ success := true, error := none }, s, 0)
  | some ruleTag =>
    if o.available then
      match o.removeRule ruleTag ip with
      | some err => ({ success := false, error := some err }, s, 1)
      | none => ({ success := true, error := none }, ⟨eraseA s.blockedIPs ip⟩, 1)
    else
      ({ success := true, error := none }, ⟨eraseA s.blockedIPs ip⟩, 0)

/-! ## internal/services/xray.go — XrayService (the lifecycle controller) -/

/-- The health-probe loop body of `checkXrayHealth` (`xray.go:91-112`):
`attemptOk i` is the outcome of the i-th `GetSystemStats` query (1-based),
`cancelled i` whether the context is found cancelled during the wait after
attempt `i`.  `fuel` is the number of attempts still allowed including the
current one; the result pairs the verdict with the number of queries issued. -/
def healthAttempts (attemptOk cancelled : Nat → Bool) : Nat → Nat → Bool × Nat
  | _, 0 => (false, 0)
  | attempt, fuel + 1 =>
    if attemptOk attempt then (true, 1)
    else if fuel = 0 then (false, 1)
    else if cancelled attempt then (false, 1)
    else
      let r := healthAttempts attemptOk cancelled (attempt + 1) fuel
      (r.1, r.2 + 1)

/-- `checkXrayHealth` (`xray.go:82`): nil stats client short-circuits to
unhealthy with no query; otherwise up to `maxRetries = 10` attempts,
2 seconds apart. -/
def checkXrayHealth (statsAvailable : Bool) (attemptOk cancelled : Nat → Bool) : Bool × Nat :=
  if statsAvailable = false then (false, 0)
  else healthAttempts attemptOk cancelled 1 10

/-- `retryInterval` of `checkXrayHealth`, in seconds. -/
def healthRetryIntervalSeconds : Nat := 2

/-- `internals` of the start request. -/
structure StartRequestInternals where
  forceRestart : Bool
  hashes : Option InboundHashes
  deriving DecidableEq, Repr

/-- The decision-relevant fields of a start request (the raw `xrayConfig`
payload only matters past the decision prefix). -/
structure StartRequest where
  internals : StartRequestInternals
  deriving DecidableEq, Repr

/-- The decision-relevant response fields of `StartResponseData`
(system/node information is host introspection, outside the model). -/
structure StartResult where
  isStarted : Bool
  version : Option String
  error : Option String
  deriving DecidableEq, Repr

/-- The controller state `Start` reads and writes up to the point where it
either answers without touching the engine or commits to the full start
sequence. -/
structure XrayState where
  isStartProcessing : Bool
  isXrayOnline : Bool
  cachedVersion : String
  disableHashedSetCheck : Bool
  internal : InternalState
  deriving DecidableEq, Repr

/-- What the decision prefix of `Start` (`xray.go:266-326`) did: reject on the
busy single-flight guard, answer from the skip-restart path, or fall through
to the full start sequence.  Each constructor carries the controller state at
that point. -/
inductive StartDecision where
  | rejected (resp : StartResult) (st : XrayState)
  | skipped (resp : StartResult) (st : XrayState)
  | fullStart (st : XrayState)
  deriving DecidableEq, Repr

/-- The second skip check of `Start` (`xray.go:310-326`), reached after the
online-path block. -/
def startSecondPhase (s : XrayState) (force : Bool) (hashes : Option InboundHashes) :
    StartDecision :=
  match hashes with
  | some h =>
    if force = false ∧ s.isXrayOnline = false ∧ s.internal.isNeedRestartCore h = false then
      .skipped { isStarted := true, version := some s.cachedVersion, error := none } s
    else .fullStart s
  | none => .fullStart s

/-- The decision prefix of `Start` (`xray.go:266-326`): CAS guard, then the
online skip branch (which consults the health probe, whose verdict is
`healthOk`, and marks the controller offline on probe failure), then the
offline skip branch.  `s.internal` is always present (`NewXrayService`). -/
def startDecision (healthOk : Bool) (s : XrayState) (req : StartRequest) : StartDecision :=
  if s.isStartProcessing then
    .rejected { isStarted := false, version := none,
                error := some "Request already in progress" } s
  else
    match req.internals.hashes with
    | some h =>
      if s.isXrayOnline ∧ s.disableHashedSetCheck = false ∧ req.internals.forceRestart = false then
        if healthOk then
          if s.internal.isNeedRestartCore h = false then
            .skipped { isStarted := true, version := some s.cachedVersion, error := none } s
          else startSecondPhase s req.internals.forceRestart (some h)
        else startSecondPhase { s with isXrayOnline := false } req.internals.forceRestart (some h)
      else startSecondPhase s req.internals.forceRestart (some h)
    | none => startSecondPhase s req.internals.forceRestart none

/-- Whether the decision prefix consults the health probe: exactly the guard
of the online skip branch. -/
def startProbeConsulted (s : XrayState) (req : StartRequest) : Bool :=
  !s.isStartProcessing && req.internals.hashes.isSome && s.isXrayOnline
    && !s.disableHashedSetCheck && !req.internals.forceRestart

/-- The decision prefix with the probe inlined, as `Start` actually runs it:
the verdict comes from `checkXrayHealth`, and the pair's second component is
the number of status queries the skip-decision probe issued. -/
def startDecisionProbed (statsAvailable : Bool) (attemptOk cancelled : Nat → Bool)
    (s : XrayState) (req : StartRequest) : StartDecision × Nat :=
  let probe := checkXrayHealth statsAvailable attemptOk cancelled
  (startDecision probe.1 s req, if startProbeConsulted s req then probe.2 else 0)

/-! ## Helper lemmas about the tracker operations -/

theorem addXtls_userMap (s : InternalState) (tag : String) :
    (s.addXtlsConfigInbound tag).userInboundMap = s.userInboundMap := by
  unfold InternalState.addXtlsConfigInbound
  split <;> rfl

theorem addXtls_mem_self (s : InternalState) (tag : String) :
    tag ∈ (s.addXtlsConfigInbound tag).xtlsConfigInbounds := by
  unfold InternalState.addXtlsConfigInbound
  split
  · assumption
  · simp

theorem addXtls_mem_mono (s : InternalState) (tag t : String)
    (h : t ∈ s.xtlsConfigInbounds) : t ∈ (s.addXtlsConfigInbound tag).xtlsConfigInbounds := by
  unfold InternalState.addXtlsConfigInbound
  split
  · exact h
  · simp [h]

theorem addTagsFold_userMap (items : List UserData) (s : InternalState) :
    ((items.foldl (fun st item => st.addXtlsConfigInbound item.tag) s)).userInboundMap
      = s.userInboundMap := by
  induction items generalizing s with
  | nil => rfl
  | cons item rest ih => simp [List.foldl_cons, ih, addXtls_userMap]

theorem addTagsFold_mem_mono (items : List UserData) (s : InternalState) (t : String)
    (h : t ∈ s.xtlsConfigInbounds) :
    t ∈ ((items.foldl (fun st item => st.addXtlsConfigInbound item.tag) s)).xtlsConfigInbounds := by
  induction items generalizing s with
  | nil => exact h
  | cons item rest ih => exact ih _ (addXtls_mem_mono _ _ _ h)

theorem rufi_lookup_none (s : InternalState) (e t : String)
    (h : lookupA s.userInboundMap e = none) : s.removeUserFromInbound e t = s := by
  unfold InternalState.removeUserFromInbound
  simp [h]

theorem rufi_xtls (s : InternalState) (e t : String) :
    (s.removeUserFromInbound e t).xtlsConfigInbounds = s.xtlsConfigInbounds := by
  unfold InternalState.removeUserFromInbound
  rcases h : lookupA s.userInboundMap e with _ | tags
  · rfl
  · dsimp only
    split <;> rfl

theorem rufi_lookup_ne (s : InternalState) (e e' t : String) (h : e' ≠ e) :
    lookupA (s.removeUserFromInbound e t).userInboundMap e' = lookupA s.userInboundMap e' := by
  unfold InternalState.removeUserFromInbound
  rcases hl : lookupA s.userInboundMap e with _ | tags
  · rfl
  · dsimp only
    split
    · exact lookupA_eraseA_ne _ _ _ h
    · exact lookupA_insertA_ne _ _ _ _ h

theorem auti_xtls (s : InternalState) (e t : String) :
    (s.addUserToInbound e t).xtlsConfigInbounds = s.xtlsConfigInbounds := rfl

theorem auti_lookup_of_none (s : InternalState) (e t : String)
    (h : lookupA s.userInboundMap e = none) :
    lookupA (s.addUserToInbound e t).userInboundMap e = some [t] := by
  unfold InternalState.addUserToInbound
  simp [h, lookupA_insertA_self]

/-- Removing a key's membership from every tag in `l` leaves the rest of the
state and every other key's entry alone. -/
theorem removeFold_xtls (key : String) (l : List String) (s : InternalState) :
    ((l.foldl (fun st tag => st.removeUserFromInbound key tag) s)).xtlsConfigInbounds
      = s.xtlsConfigInbounds := by
  induction l generalizing s with
  | nil => rfl
  | cons t rest ih => simp [List.foldl_cons, ih, rufi_xtls]

theorem removeFold_lookup_ne (key key' : String) (hk : key' ≠ key) (l : List String)
    (s : InternalState) :
    lookupA ((l.foldl (fun st tag => st.removeUserFromInbound key tag) s)).userInboundMap key'
      = lookupA s.userInboundMap key' := by
  induction l generalizing s with
  | nil => rfl
  | cons t rest ih => simp [List.foldl_cons, ih, rufi_lookup_ne _ _ _ _ hk]

/-- If every tag the key belongs to occurs in `l` (and its entry is non-empty,
as the tracker maintains), folding the per-tag removal over `l` erases the
key's entry. -/
theorem removeFold_lookup_none (key : String) (l : List String) (s : InternalState)
    (hinv : ∀ tags, lookupA s.userInboundMap key = some tags →
      tags ≠ [] ∧ ∀ t ∈ tags, t ∈ l) :
    lookupA ((l.foldl (fun st tag => st.removeUserFromInbound key tag) s)).userInboundMap key
      = none := by
  induction l generalizing s with
  | nil =>
    rcases hl : lookupA s.userInboundMap key with _ | tags
    · simpa [List.foldl_nil] using hl
    · obtain ⟨hne, hsub⟩ := hinv tags hl
      cases tags with
      | nil => exact absurd rfl hne
      | cons a as => exact absurd (hsub a (by simp)) (by simp)
  | cons t rest ih =>
    rw [List.foldl_cons]
    apply ih
    intro tags' hl'
    rcases hl : lookupA s.userInboundMap key with _ | tags
    · rw [rufi_lookup_none s key t hl] at hl'
      rw [hl'] at hl
      exact absurd hl (by simp)
    · obtain ⟨hne, hsub⟩ := hinv tags hl
      unfold InternalState.removeUserFromInbound at hl'
      rw [hl] at hl'
      dsimp only at hl'
      by_cases hemp : (tags.filter (fun x => x ≠ t)).isEmpty
      · rw [if_pos hemp] at hl'
        simp only at hl'
        rw [lookupA_eraseA_self] at hl'
        exact absurd hl' (by simp)
      · rw [if_neg hemp] at hl'
        simp only at hl'
        rw [lookupA_insertA_self] at hl'
        have htags' : tags' = tags.filter (fun x => x ≠ t) := by
          exact (Option.some.injEq _ _ ▸ hl').symm
        subst htags'
        refine ⟨by simpa [List.isEmpty_iff] using hemp, ?_⟩
        intro x hx
        have hx' := List.mem_filter.mp hx
        have hxt : x ≠ t := by simpa using hx'.2
        have := hsub x hx'.1
        simp only [List.mem_cons] at this
        rcases this with h | h
        · exact absurd h hxt
        · exact h

theorem removeFold_state_id (eng : EngineOracle) (username key : String) (l : List String)
    (st : InternalState) (succ fail : Nat) (last : Option String)
    (hnone : lookupA st.userInboundMap key = none) :
    (l.foldl (removeUserFold eng username key) (st, succ, fail, last)).1 = st ∧
    (l.foldl (removeUserFold eng username key) (st, succ, fail, last)).2.1
      = succ + l.countP (fun t => (eng.removeUser t username).isNone) ∧
    (l.foldl (removeUserFold eng username key) (st, succ, fail, last)).2.2.1
      = fail + l.countP (fun t => (eng.removeUser t username).isSome) := by
  induction l generalizing st succ fail last with
  | nil => simp
  | cons t rest ih =>
    rw [List.foldl_cons]
    rcases hr : eng.removeUser t username with _ | e
    · have hstep : removeUserFold eng username key (st, succ, fail, last) t
          = (st, succ + 1, fail, last) := by
        simp [removeUserFold, hr, rufi_lookup_none st key t hnone]
      rw [hstep]
      obtain ⟨h1, h2, h3⟩ := ih st (succ + 1) fail last hnone
      refine ⟨h1, ?_, ?_⟩
      · rw [h2, List.countP_cons]
        simp [hr]
        omega
      · rw [h3, List.countP_cons]
        simp [hr]
    · have hstep : removeUserFold eng username key (st, succ, fail, last) t
          = (st, succ, fail + 1, some e) := by
        simp [removeUserFold, hr, rufi_lookup_none st key t hnone]
      rw [hstep]
      obtain ⟨h1, h2, h3⟩ := ih st succ (fail + 1) (some e) hnone
      refine ⟨h1, ?_, ?_⟩
      · rw [h2, List.countP_cons]
        simp [hr]
      · rw [h3, List.countP_cons]
        simp [hr]
        omega

/-- The exact condition under which `IsNeedRestartCore` reports that no
restart is needed: hash checking enabled, a stored base-config fingerprint
matching the manifest, matching inbound counts, every manifest inbound tracked
with matching stored `"users"` fingerprint, and every tracked inbound present
in the manifest. -/
theorem isNeedRestartCore_eq_false_iff (s : InternalState) (hashes : InboundHashes) :
    s.isNeedRestartCore hashes = false ↔
      s.disableHashCheck = false ∧
      s.emptyConfigHash ≠ "" ∧
      s.emptyConfigHash = hashes.emptyConfig ∧
      hashes.inbounds.length = s.inboundHashSets.length ∧
      (∀ item ∈ hashes.inbounds,
        (lookupA s.inboundHashSets item.tag).map (fun hs => (hs.getHash "users").getD "")
          = some item.hash) ∧
      (∀ p ∈ s.inboundHashSets, ∃ item ∈ hashes.inbounds, item.tag = p.1) := by
  unfold InternalState.isNeedRestartCore
  constructor
  · intro h
    simp only [Bool.or_eq_false_iff] at h
    obtain ⟨⟨⟨⟨⟨h1, h2⟩, h3⟩, h4⟩, h5⟩, h6⟩ := h
    refine ⟨h1, by simpa using h2, by simpa using h3, by simpa using h4, ?_, ?_⟩
    · rw [List.any_eq_false] at h5
      intro item hitem
      have := h5 item hitem
      rcases hl : lookupA s.inboundHashSets item.tag with _ | hs
      · rw [hl] at this
        simp at this
      · rw [hl] at this
        simp only [Option.map_some', Option.some.injEq]
        simpa using this
    · rw [List.any_eq_false] at h6
      intro p hp
      have := h6 p hp
      simp only [Bool.not_eq_true, Bool.not_eq_false', List.any_eq_true, beq_iff_eq] at this
      obtain ⟨item, hitem, heq⟩ := this
      exact ⟨item, hitem, heq⟩
  · rintro ⟨h1, h2, h3, h4, h5, h6⟩
    simp only [Bool.or_eq_false_iff]
    refine ⟨⟨⟨⟨⟨h1, by simpa using h2⟩, by simpa using h3⟩, by simpa using h4⟩, ?_⟩, ?_⟩
    · rw [List.any_eq_false]
      intro item hitem
      have := h5 item hitem
      rcases hl : lookupA s.inboundHashSets item.tag with _ | hs
      · rw [hl] at this
        simp at this
      · rw [hl] at this
        simp only [Option.map_some', Option.some.injEq] at this
        simpa using this
    · rw [List.any_eq_false]
      intro p hp
      rcases h6 p hp with ⟨item, hitem, heq⟩
      simp only [Bool.not_eq_true, Bool.not_eq_false', List.any_eq_true, beq_iff_eq]
      exact ⟨item, hitem, heq⟩

/-! ## Claim theorems -/

/-- C8: for every key that has no stored hash and every serializable value,
`HasChanged(key, value)` returns true; and for every key with a stored hash,
it returns true exactly when the digest of the value differs from the stored
hash. -/
theorem hasChanged_missing_or_differs {α : Type} (digest : α → Option String)
    (s : HashedSet) (key : String) (v : α) (h : String)
    (hser : computeHashWith digest v = some h) :
    (s.getHash key = none → s.hasChanged digest key v = some true) ∧
    (∀ stored, s.getHash key = some stored →
      (s.hasChanged digest key v = some true ↔ stored ≠ h)) := by
  constructor
  · intro hnone
    simp [HashedSet.hasChanged, hser, hnone]
  · intro stored hstored
    simp [HashedSet.hasChanged, hser, hstored]

/-- Witness for C8: the digest is the identity serialization; a stored hash
`"a"` under key `"k"` differs from the value `"b"`, so `HasChanged` reports
`true`; and a missing key `"m"` also reports `true`. -/
theorem hasChanged_missing_or_differs_witness :
    (HashedSet.hasChanged (fun v => some v) ⟨[("k", "a")]⟩ "k" "b" = some true) ∧
    (HashedSet.hasChanged (fun v => some v) ⟨[("k", "a")]⟩ "m" "b" = some true) :=
  ⟨((hasChanged_missing_or_differs (fun v => some v) ⟨[("k", "a")]⟩ "k" "b" "b" rfl).2
      "a" rfl).mpr (by decide),
   (hasChanged_missing_or_differs (fun v => some v) ⟨[("k", "a")]⟩ "m" "b" "b" rfl).1 rfl⟩

/-- C10: when the engine reports not running, each of AddUser, AddUsers,
RemoveUser, and RemoveUsers returns `{success:false, error:"Xray not
running"}` with no transport-level error, leaving the tracker state
(membership map and tracked-inbound set) untouched. -/
theorem handler_guard_not_running (eng : EngineOracle) (s : InternalState)
    (r1 : AddUserRequest) (r2 : AddUsersRequest) (r3 : RemoveUserRequest)
    (r4 : RemoveUsersRequest) (hrun : eng.isRunning = false) :
    addUser eng s r1 = ({ success := false, error := some "Xray not running" }, s) ∧
    addUsers eng s r2 = ({ success := false, error := some "Xray not running" }, s) ∧
    removeUser eng s r3 = ({ success := false, error := some "Xray not running" }, s) ∧
    removeUsers eng s r4 = ({ success := false, error := some "Xray not running" }, s) := by
  refine ⟨?_, ?_, ?_, ?_⟩ <;> simp [addUser, addUsers, removeUser, removeUsers, hrun]

/-- Witness for C10: a stopped engine oracle and a concrete tracker state. -/
theorem handler_guard_not_running_witness :
    addUser ⟨false, fun _ _ => none, fun _ _ => none⟩
        ⟨[("u", ["A"])], [], "h", ["A"], false⟩ ⟨[], ⟨"u", ""⟩⟩
      = ({ success := false, error := some "Xray not running" },
         ⟨[("u", ["A"])], [], "h", ["A"], false⟩) ∧
    removeUser ⟨false, fun _ _ => none, fun _ _ => none⟩
        ⟨[("u", ["A"])], [], "h", ["A"], false⟩ ⟨"user1", "u"⟩
      = ({ success := false, error := some "Xray not running" },
         ⟨[("u", ["A"])], [], "h", ["A"], false⟩) := by
  have h := handler_guard_not_running ⟨false, fun _ _ => none, fun _ _ => none⟩
    ⟨[("u", ["A"])], [], "h", ["A"], false⟩ ⟨[], ⟨"u", ""⟩⟩ ⟨[], []⟩ ⟨"user1", "u"⟩ ⟨[]⟩ rfl
  exact ⟨h.1, h.2.2.1⟩

/-- C3: when the single-flight guard is already held, `Start` immediately
returns `isStarted:false` with the "already in progress" error and leaves the
controller state (including the tracker) untouched; the guard is the only way
into the full start sequence, so concurrent calls cannot both run it. -/
theorem start_rejected_when_guard_held (healthOk : Bool) (s : XrayState)
    (req : StartRequest) (h : s.isStartProcessing = true) :
    startDecision healthOk s req =
      .rejected { isStarted := false, version := none,
                  error := some "Request already in progress" } s := by
  simp [startDecision, h]

/-- Witness for C3: a concrete controller state with the guard held. -/
theorem start_rejected_when_guard_held_witness :
    startDecision true ⟨true, true, "1.8.4", false, ⟨[], [], "h", [], false⟩⟩
        ⟨⟨false, none⟩⟩ =
      .rejected { isStarted := false, version := none,
                  error := some "Request already in progress" }
        ⟨true, true, "1.8.4", false, ⟨[], [], "h", [], false⟩⟩ :=
  start_rejected_when_guard_held true ⟨true, true, "1.8.4", false, ⟨[], [], "h", [], false⟩⟩
    ⟨⟨false, none⟩⟩ rfl

/-- C9: `Block(ip)` is idempotent — across two calls for the same IP, the
first of which succeeds, at most one `AddRule` call total is issued and the
second call succeeds without touching the engine or the mirror; `Unblock(ip)`
for a never-blocked IP succeeds with no `RemoveRule` call and no mirror
mutation. -/
theorem blockIP_idempotent_unblock_noop (ipHash : String → String) (o o2 : RouterOracle)
    (s : VisionState) (ip : String) :
    (blockIP ipHash o s ip).2.2 ≤ 1 ∧
    ((blockIP ipHash o s ip).1.success = true →
      blockIP ipHash o2 (blockIP ipHash o s ip).2.1 ip
        = ({ success := true, error := none }, (blockIP ipHash o s ip).2.1, 0)) ∧
    (lookupA s.blockedIPs ip = none →
      unblockIP o s ip = ({ success := true, error := none }, s, 0)) := by
  refine ⟨?_, ?_, ?_⟩
  · by_cases hrec : (lookupA s.blockedIPs ip).isSome
    · simp [blockIP, hrec]
    · rcases haddr : o.addRule (ipHash ip) ip with _ | err <;>
        by_cases hav : o.available <;> simp [blockIP, hrec, hav, haddr]
  · intro hsucc
    by_cases hrec : (lookupA s.blockedIPs ip).isSome
    · simp [blockIP, hrec]
    · rcases haddr : o.addRule (ipHash ip) ip with _ | err
      · by_cases hav : o.available <;>
          simp [blockIP, hrec, hav, haddr, lookupA_insertA_self]
      · by_cases hav : o.available
        · simp [blockIP, hrec, hav, haddr] at hsucc
        · simp [blockIP, hrec, hav, haddr, lookupA_insertA_self]
  · intro hnone
    simp [unblockIP, hnone]

/-- Witness for C9: an available router whose calls succeed; blocking
`"1.2.3.4"` twice from an empty mirror ends with the IP recorded once, and
unblocking the never-blocked `"5.6.7.8"` is a no-op success. -/
theorem blockIP_idempotent_unblock_noop_witness :
    blockIP (fun _ => "tag1") ⟨true, fun _ _ => none, fun _ _ => none⟩
        (blockIP (fun _ => "tag1") ⟨true, fun _ _ => none, fun _ _ => none⟩ ⟨[]⟩ "1.2.3.4").2.1
        "1.2.3.4"
      = ({ success := true, error := none },
         (blockIP (fun _ => "tag1") ⟨true, fun _ _ => none, fun _ _ => none⟩ ⟨[]⟩
            "1.2.3.4").2.1, 0) ∧
    unblockIP ⟨true, fun _ _ => none, fun _ _ => none⟩ ⟨[]⟩ "5.6.7.8"
      = ({ success := true, error := none }, ⟨[]⟩, 0) :=
  ⟨(blockIP_idempotent_unblock_noop (fun _ => "tag1")
      ⟨true, fun _ _ => none, fun _ _ => none⟩ ⟨true, fun _ _ => none, fun _ _ => none⟩
      ⟨[]⟩ "1.2.3.4").2.1 (by decide),
   (blockIP_idempotent_unblock_noop (fun _ => "tag1")
      ⟨true, fun _ _ => none, fun _ _ => none⟩ ⟨true, fun _ _ => none, fun _ _ => none⟩
      ⟨[]⟩ "5.6.7.8").2.2 rfl⟩

/-- C1: `IsNeedRestartCore(manifest)` returns false exactly when the stored
state matches the manifest (hash-checking enabled, stored base-config
fingerprint present and equal to `manifest.emptyConfig`, matching inbound
count, every manifest inbound tracked with equal stored `"users"`
fingerprint, no tracked tag absent from the manifest); and from any matching
state, changing one inbound's manifest fingerprint, changing `emptyConfig`
alone, or removing one inbound from the manifest each flips it to true. -/
theorem isNeedRestartCore_exact_match (s : InternalState) (hashes : InboundHashes) :
    (s.isNeedRestartCore hashes = false ↔
      s.disableHashCheck = false ∧
      s.emptyConfigHash ≠ "" ∧
      s.emptyConfigHash = hashes.emptyConfig ∧
      hashes.inbounds.length = s.inboundHashSets.length ∧
      (∀ item ∈ hashes.inbounds,
        (lookupA s.inboundHashSets item.tag).map (fun hs => (hs.getHash "users").getD "")
          = some item.hash) ∧
      (∀ p ∈ s.inboundHashSets, ∃ item ∈ hashes.inbounds, item.tag = p.1)) ∧
    (s.isNeedRestartCore hashes = false →
      (∀ i, (hi : i < hashes.inbounds.length) → ∀ newHash,
        newHash ≠ (hashes.inbounds.get ⟨i, hi⟩).hash →
        s.isNeedRestartCore ⟨hashes.emptyConfig,
          hashes.inbounds.set i
            ⟨(hashes.inbounds.get ⟨i, hi⟩).tag, newHash,
             (hashes.inbounds.get ⟨i, hi⟩).usersCount⟩⟩ = true) ∧
      (∀ newEmpty, newEmpty ≠ hashes.emptyConfig →
        s.isNeedRestartCore ⟨newEmpty, hashes.inbounds⟩ = true) ∧
      (∀ i, i < hashes.inbounds.length →
        s.isNeedRestartCore ⟨hashes.emptyConfig, hashes.inbounds.eraseIdx i⟩ = true)) := by
  refine ⟨isNeedRestartCore_eq_false_iff s hashes, ?_⟩
  intro hfalse
  obtain ⟨h1, h2, h3, h4, h5, h6⟩ := (isNeedRestartCore_eq_false_iff s hashes).mp hfalse
  refine ⟨?_, ?_, ?_⟩
  · intro i hi newHash hne
    unfold InternalState.isNeedRestartCore
    simp only [Bool.or_eq_true]
    refine Or.inl (Or.inr ?_)
    rw [List.any_eq_true]
    have hmem : (⟨(hashes.inbounds.get ⟨i, hi⟩).tag, newHash,
        (hashes.inbounds.get ⟨i, hi⟩).usersCount⟩ : InboundHashItem)
        ∈ hashes.inbounds.set i
          ⟨(hashes.inbounds.get ⟨i, hi⟩).tag, newHash,
           (hashes.inbounds.get ⟨i, hi⟩).usersCount⟩ := by
      have hlen : i < (hashes.inbounds.set i
          ⟨(hashes.inbounds.get ⟨i, hi⟩).tag, newHash,
           (hashes.inbounds.get ⟨i, hi⟩).usersCount⟩).length := by
        simpa using hi
      have hset := List.getElem_set_self (l := hashes.inbounds) (i := i)
        (a := ⟨(hashes.inbounds.get ⟨i, hi⟩).tag, newHash,
               (hashes.inbounds.get ⟨i, hi⟩).usersCount⟩) hlen
      have hmem' := List.getElem_mem hlen
      rw [hset] at hmem'
      exact hmem'
    refine ⟨_, hmem, ?_⟩
    have hold := h5 (hashes.inbounds.get ⟨i, hi⟩) (List.get_mem _ _ _)
    rw [Option.map_eq_some'] at hold
    obtain ⟨hs, hl, hh⟩ := hold
    rw [hl]
    simp only
    rw [hh]
    exact bne_iff_ne.mpr (Ne.symm hne)
  · intro newEmpty hne
    unfold InternalState.isNeedRestartCore
    simp only [Bool.or_eq_true]
    refine Or.inl (Or.inl (Or.inl (Or.inr ?_)))
    rw [h3]
    exact bne_iff_ne.mpr (fun hcontra => hne hcontra.symm)
  · intro i hi
    unfold InternalState.isNeedRestartCore
    simp only [Bool.or_eq_true]
    refine Or.inl (Or.inl (Or.inr ?_))
    rw [List.length_eraseIdx_of_lt hi, ← h4]
    have hpos : 0 < hashes.inbounds.length := Nat.lt_of_le_of_lt (Nat.zero_le i) hi
    exact bne_iff_ne.mpr (by omega)

/-- Witness for C1: a matching state/manifest pair where no restart is
needed, and the emptyConfig-only change forcing a restart. -/
theorem isNeedRestartCore_exact_match_witness :
    (InternalState.isNeedRestartCore ⟨[], [("A", ⟨[("users", "x")]⟩)], "h", ["A"], false⟩
      ⟨"h", [⟨"A", "x", 1⟩]⟩ = false) ∧
    (InternalState.isNeedRestartCore ⟨[], [("A", ⟨[("users", "x")]⟩)], "h", ["A"], false⟩
      ⟨"z", [⟨"A", "x", 1⟩]⟩ = true) := by
  have hmatch : InternalState.isNeedRestartCore
      ⟨[], [("A", ⟨[("users", "x")]⟩)], "h", ["A"], false⟩ ⟨"h", [⟨"A", "x", 1⟩]⟩ = false :=
    (isNeedRestartCore_exact_match ⟨[], [("A", ⟨[("users", "x")]⟩)], "h", ["A"], false⟩
      ⟨"h", [⟨"A", "x", 1⟩]⟩).1.mpr (by decide)
  exact ⟨hmatch,
    ((isNeedRestartCore_exact_match ⟨[], [("A", ⟨[("users", "x")]⟩)], "h", ["A"], false⟩
      ⟨"h", [⟨"A", "x", 1⟩]⟩).2 hmatch).2.1 "z" (by decide)⟩

/-- Counterexample to C6: with one tracked inbound `"A"`, a running engine
whose per-tag `RemoveUser` fails, and an identity (`hashData.vlessUuid = "u"`)
that was never added, `RemoveUser` returns `success:false` — not the success
result the claim promises regardless of engine outcomes.  (The state is still
untouched.) -/
theorem removeUser_never_added_cx :
    removeUser ⟨true, fun _ _ => none, fun _ _ => some "boom"⟩
        ⟨[], [], "h", ["A"], false⟩ ⟨"user1", "u"⟩
      = ({ success := false, error := some "boom" }, ⟨[], [], "h", ["A"], false⟩) := by
  decide

/-- C6 (amended): `RemoveUser` for an identity with no membership entry leaves
the tracker state untouched, and — when the engine is running — returns
success exactly when no inbound is tracked or at least one per-tag engine
removal succeeds (when every per-tag removal fails it returns failure). -/
theorem removeUser_never_added_amended (eng : EngineOracle) (s : InternalState)
    (req : RemoveUserRequest) (hrun : eng.isRunning = true)
    (hnone : lookupA s.userInboundMap req.vlessUuid = none) :
    (removeUser eng s req).2 = s ∧
    ((removeUser eng s req).1.success = true ↔
      s.xtlsConfigInbounds = [] ∨
      ∃ t ∈ s.xtlsConfigInbounds, eng.removeUser t req.username = none) := by
  unfold removeUser
  rw [hrun]
  simp only [Bool.true_eq_false, if_false]
  by_cases hemp : s.xtlsConfigInbounds.isEmpty
  · rw [if_pos hemp]
    refine ⟨rfl, ?_⟩
    simp [List.isEmpty_iff.mp hemp]
  · rw [if_neg hemp]
    obtain ⟨h1, h2, h3⟩ := removeFold_state_id eng req.username req.vlessUuid
      s.xtlsConfigInbounds s 0 0 none hnone
    have hlen : s.xtlsConfigInbounds ≠ [] := by
      simpa [List.isEmpty_iff] using hemp
    by_cases hex : ∃ t ∈ s.xtlsConfigInbounds, eng.removeUser t req.username = none
    · have hsuccpos : 0 <
          (s.xtlsConfigInbounds.foldl (removeUserFold eng req.username req.vlessUuid)
            (s, 0, 0, none)).2.1 := by
        rw [h2, Nat.zero_add]
        rw [List.countP_pos_iff]
        obtain ⟨t, ht, hnone'⟩ := hex
        exact ⟨t, ht, by simp [hnone']⟩
      rw [if_neg (by omega)]
      exact ⟨h1, by simp [hex]⟩
    · have hsucc0 :
          (s.xtlsConfigInbounds.foldl (removeUserFold eng req.username req.vlessUuid)
            (s, 0, 0, none)).2.1 = 0 := by
        rw [h2, Nat.zero_add]
        rw [List.countP_eq_zero]
        intro t ht
        simp only [Option.isNone_iff_eq_none, decide_eq_true_eq]
        intro hc
        exact hex ⟨t, ht, hc⟩
      have hfailpos : 0 <
          (s.xtlsConfigInbounds.foldl (removeUserFold eng req.username req.vlessUuid)
            (s, 0, 0, none)).2.2.1 := by
        rw [h3, Nat.zero_add]
        rw [List.countP_pos_iff]
        obtain ⟨t, rest, hcons⟩ := List.exists_cons_of_ne_nil hlen
        refine ⟨t, by rw [hcons]; simp, ?_⟩
        rcases hr : eng.removeUser t req.username with _ | e
        · exact absurd ⟨t, by rw [hcons]; simp, hr⟩ hex
        · simp [hr]
      rw [if_pos ⟨hsucc0, hfailpos⟩]
      refine ⟨h1, ?_⟩
      simp only [Bool.false_eq_true, false_iff]
      push_neg
      exact ⟨hlen, fun t ht hc => hex ⟨t, ht, hc⟩⟩

/-- Witness for C6 (amended): two tracked inbounds, one engine removal
succeeding; the never-added identity leaves the state untouched and the call
succeeds. -/
theorem removeUser_never_added_amended_witness :
    (removeUser ⟨true, fun _ _ => none, fun tag _ => if tag = "A" then some "e" else none⟩
        ⟨[], [], "h", ["A", "B"], false⟩ ⟨"user1", "u"⟩).2
      = ⟨[], [], "h", ["A", "B"], false⟩ ∧
    (removeUser ⟨true, fun _ _ => none, fun tag _ => if tag = "A" then some "e" else none⟩
        ⟨[], [], "h", ["A", "B"], false⟩ ⟨"user1", "u"⟩).1.success = true := by
  have h := removeUser_never_added_amended
    ⟨true, fun _ _ => none, fun tag _ => if tag = "A" then some "e" else none⟩
    ⟨[], [], "h", ["A", "B"], false⟩ ⟨"user1", "u"⟩ rfl (by simp [lookupA])
  exact ⟨h.1, h.2.mpr (Or.inr ⟨"B", by decide, by decide⟩)⟩

/-- Counterexample to C5: with tracked inbound `"A"`, current key `"u"` and
prior key `"p"` both holding membership `{A}`, the removal phase of `AddUser`
(prior key supplied) erases only the prior key's entries — the current key
`"u"` still has a membership entry for the tracked tag `"A"`, contradicting
the claim that both keys are cleared. -/
theorem addUser_removal_keeps_current_key_cx :
    lookupA (addUserRemovalPhase ⟨[("u", ["A"]), ("p", ["A"])], [], "h", ["A"], false⟩
        ⟨[⟨"vless", "B", "user1", "id1", "", "", 0, false⟩], ⟨"u", "p"⟩⟩).userInboundMap "u"
      = some ["A"] ∧
    "A" ∈ (addUserRemovalPhase ⟨[("u", ["A"]), ("p", ["A"])], [], "h", ["A"], false⟩
        ⟨[⟨"vless", "B", "user1", "id1", "", "", 0, false⟩], ⟨"u", "p"⟩⟩).xtlsConfigInbounds ∧
    ("p" : String) ≠ "" := by
  decide

/-- C5 (amended): in `AddUser`'s removal phase, for every currently tracked
tag, the membership entry is removed for a single identity key — the prior
key when one is supplied, otherwise the current key.  The key chosen by the
if/else is cleared from every tracked tag, and when a prior key is supplied
the current key's entry is left exactly as it was. -/
theorem addUser_removal_single_key (s : InternalState) (req : AddUserRequest)
    (hinv : ∀ tags, lookupA s.userInboundMap
        (if req.hashData.prevVlessUuid ≠ "" then req.hashData.prevVlessUuid
         else req.hashData.vlessUuid) = some tags →
      tags ≠ [] ∧ ∀ t ∈ tags, t ∈ s.xtlsConfigInbounds) :
    lookupA (addUserRemovalPhase s req).userInboundMap
      (if req.hashData.prevVlessUuid ≠ "" then req.hashData.prevVlessUuid
       else req.hashData.vlessUuid) = none ∧
    (req.hashData.prevVlessUuid ≠ "" →
      req.hashData.vlessUuid ≠ req.hashData.prevVlessUuid →
      lookupA (addUserRemovalPhase s req).userInboundMap req.hashData.vlessUuid
        = lookupA s.userInboundMap req.hashData.vlessUuid) := by
  have hrem : addUserRemovalPhase s req
      = (req.data.foldl (fun st item => st.addXtlsConfigInbound item.tag) s).xtlsConfigInbounds.foldl
          (fun st tag => st.removeUserFromInbound
            (if req.hashData.prevVlessUuid ≠ "" then req.hashData.prevVlessUuid
             else req.hashData.vlessUuid) tag)
          (req.data.foldl (fun st item => st.addXtlsConfigInbound item.tag) s) := rfl
  rw [hrem]
  constructor
  · apply removeFold_lookup_none
    intro tags htags
    rw [addTagsFold_userMap] at htags
    obtain ⟨hne', hsub⟩ := hinv tags htags
    exact ⟨hne', fun t ht => addTagsFold_mem_mono _ _ _ (hsub t ht)⟩
  · intro hprev hne
    rw [if_pos hprev]
    rw [removeFold_lookup_ne _ _ hne, addTagsFold_userMap]

/-- Witness for C5 (amended), exercising both branches: with a prior key
`"p"` supplied, `"p"` is cleared and the current key `"u"` is untouched; with
no prior key, the current key `"u"` itself is cleared from every tracked
tag. -/
theorem addUser_removal_single_key_witness :
    (lookupA (addUserRemovalPhase ⟨[("u", ["A"]), ("p", ["A"])], [], "h", ["A"], false⟩
        ⟨[⟨"vless", "B", "user1", "id1", "", "", 0, false⟩], ⟨"u", "p"⟩⟩).userInboundMap "p"
      = none) ∧
    (lookupA (addUserRemovalPhase ⟨[("u", ["A"]), ("p", ["A"])], [], "h", ["A"], false⟩
        ⟨[⟨"vless", "B", "user1", "id1", "", "", 0, false⟩], ⟨"u", "p"⟩⟩).userInboundMap "u"
      = lookupA ([("u", ["A"]), ("p", ["A"])] : List (String × List String)) "u") ∧
    (lookupA (addUserRemovalPhase ⟨[("u", ["A"]), ("p", ["A"])], [], "h", ["A"], false⟩
        ⟨[⟨"vless", "B", "user1", "id1", "", "", 0, false⟩], ⟨"u", ""⟩⟩).userInboundMap "u"
      = none) := by
  have hwith := addUser_removal_single_key
    ⟨[("u", ["A"]), ("p", ["A"])], [], "h", ["A"], false⟩
    ⟨[⟨"vless", "B", "user1", "id1", "", "", 0, false⟩], ⟨"u", "p"⟩⟩
    (by
      intro tags htags
      simp only [lookupA] at htags
      refine ⟨?_, ?_⟩
      · simp only [show tags = ["A"] from by simpa using htags.symm]
        decide
      · intro t ht
        simp only [show tags = ["A"] from by simpa using htags.symm,
          List.mem_singleton] at ht
        subst ht
        decide)
  have hwithout := addUser_removal_single_key
    ⟨[("u", ["A"]), ("p", ["A"])], [], "h", ["A"], false⟩
    ⟨[⟨"vless", "B", "user1", "id1", "", "", 0, false⟩], ⟨"u", ""⟩⟩
    (by
      intro tags htags
      simp only [lookupA] at htags
      refine ⟨?_, ?_⟩
      · simp only [show tags = ["A"] from by simpa using htags.symm]
        decide
      · intro t ht
        simp only [show tags = ["A"] from by simpa using htags.symm,
          List.mem_singleton] at ht
        subst ht
        decide)
  exact ⟨hwith.1, hwith.2 (by decide) (by decide), hwithout.1⟩

/-- One `AddUser` call with a single target and no prior key, on a state whose
entry for the identity key respects the tracker invariant: the call succeeds,
and afterwards the identity's membership is exactly the target tag. -/
theorem addUser_single_target (eng : EngineOracle) (s : InternalState) (item : UserData)
    (u : String) (xu : XUser)
    (hrun : eng.isRunning = true) (hx : mkXUser item = some xu)
    (hadd : eng.addUser item.tag xu = none)
    (hinv : ∀ tags, lookupA s.userInboundMap u = some tags →
      tags ≠ [] ∧ ∀ t ∈ tags, t ∈ s.xtlsConfigInbounds) :
    (addUser eng s ⟨[item], ⟨u, ""⟩⟩).1.success = true ∧
    lookupA (addUser eng s ⟨[item], ⟨u, ""⟩⟩).2.userInboundMap u = some [item.tag] ∧
    item.tag ∈ (addUser eng s ⟨[item], ⟨u, ""⟩⟩).2.xtlsConfigInbounds := by
  have heq : addUser eng s ⟨[item], ⟨u, ""⟩⟩
      = ({ success := true, error := none },
         (addUserRemovalPhase s ⟨[item], ⟨u, ""⟩⟩).addUserToInbound u item.tag) := by
    simp [addUser, hrun, addUserStep3, hx, hadd]
  have hrem : addUserRemovalPhase s ⟨[item], ⟨u, ""⟩⟩
      = (s.addXtlsConfigInbound item.tag).xtlsConfigInbounds.foldl
          (fun st tag => st.removeUserFromInbound u tag) (s.addXtlsConfigInbound item.tag) := by
    simp [addUserRemovalPhase]
  have hs2none : lookupA (addUserRemovalPhase s ⟨[item], ⟨u, ""⟩⟩).userInboundMap u = none := by
    rw [hrem]
    apply removeFold_lookup_none
    intro tags htags
    rw [addXtls_userMap] at htags
    obtain ⟨hne', hsub⟩ := hinv tags htags
    exact ⟨hne', fun t ht => addXtls_mem_mono _ _ _ (hsub t ht)⟩
  have hs2mem : item.tag ∈ (addUserRemovalPhase s ⟨[item], ⟨u, ""⟩⟩).xtlsConfigInbounds := by
    rw [hrem, removeFold_xtls]
    exact addXtls_mem_self s item.tag
  rw [heq]
  refine ⟨rfl, ?_, ?_⟩
  · exact auti_lookup_of_none _ _ _ hs2none
  · rw [auti_xtls]
    exact hs2mem

/-- C4: for the same identity key, `AddUser` targeting tag A (succeeding) and
then `AddUser` targeting tag B (succeeding), with no prior identity key, leave
the identity's membership set exactly `{B}` — the removal phase of the second
call strips the earlier `{A}` membership first. -/
theorem addUser_twice_membership_exactly_second (eng eng' : EngineOracle)
    (s0 : InternalState) (itemA itemB : UserData) (u : String) (xa xb : XUser)
    (hrun : eng.isRunning = true) (hrun' : eng'.isRunning = true)
    (hxa : mkXUser itemA = some xa) (hadda : eng.addUser itemA.tag xa = none)
    (hxb : mkXUser itemB = some xb) (haddb : eng'.addUser itemB.tag xb = none)
    (hinv : ∀ tags, lookupA s0.userInboundMap u = some tags →
      tags ≠ [] ∧ ∀ t ∈ tags, t ∈ s0.xtlsConfigInbounds) :
    (addUser eng s0 ⟨[itemA], ⟨u, ""⟩⟩).1.success = true ∧
    (addUser eng' (addUser eng s0 ⟨[itemA], ⟨u, ""⟩⟩).2 ⟨[itemB], ⟨u, ""⟩⟩).1.success = true ∧
    lookupA (addUser eng' (addUser eng s0 ⟨[itemA], ⟨u, ""⟩⟩).2
        ⟨[itemB], ⟨u, ""⟩⟩).2.userInboundMap u
      = some [itemB.tag] := by
  obtain ⟨h1succ, h1look, h1mem⟩ :=
    addUser_single_target eng s0 itemA u xa hrun hxa hadda hinv
  have hinv1 : ∀ tags,
      lookupA (addUser eng s0 ⟨[itemA], ⟨u, ""⟩⟩).2.userInboundMap u = some tags →
      tags ≠ [] ∧ ∀ t ∈ tags, t ∈ (addUser eng s0 ⟨[itemA], ⟨u, ""⟩⟩).2.xtlsConfigInbounds := by
    intro tags htags
    rw [h1look] at htags
    have htags' : tags = [itemA.tag] := by
      exact (Option.some.injEq _ _).mp htags.symm
    subst htags'
    refine ⟨by simp, ?_⟩
    intro t ht
    simp only [List.mem_singleton] at ht
    subst ht
    exact h1mem
  obtain ⟨h2succ, h2look, _⟩ :=
    addUser_single_target eng' _ itemB u xb hrun' hxb haddb hinv1
  exact ⟨h1succ, h2succ, h2look⟩

/-- Witness for C4: a fresh tracker, a running engine accepting every add;
adding `"u"` to tag `"A"` and then to tag `"B"` leaves membership exactly
`["B"]`. -/
theorem addUser_twice_membership_exactly_second_witness :
    (addUser ⟨true, fun _ _ => none, fun _ _ => none⟩ ⟨[], [], "", [], false⟩
        ⟨[⟨"vless", "A", "user1", "id1", "", "", 0, false⟩], ⟨"u", ""⟩⟩).1.success = true ∧
    (addUser ⟨true, fun _ _ => none, fun _ _ => none⟩
        (addUser ⟨true, fun _ _ => none, fun _ _ => none⟩ ⟨[], [], "", [], false⟩
          ⟨[⟨"vless", "A", "user1", "id1", "", "", 0, false⟩], ⟨"u", ""⟩⟩).2
        ⟨[⟨"vless", "B", "user1", "id1", "", "", 0, false⟩], ⟨"u", ""⟩⟩).1.success = true ∧
    lookupA (addUser ⟨true, fun _ _ => none, fun _ _ => none⟩
        (addUser ⟨true, fun _ _ => none, fun _ _ => none⟩ ⟨[], [], "", [], false⟩
          ⟨[⟨"vless", "A", "user1", "id1", "", "", 0, false⟩], ⟨"u", ""⟩⟩).2
        ⟨[⟨"vless", "B", "user1", "id1", "", "", 0, false⟩], ⟨"u", ""⟩⟩).2.userInboundMap "u"
      = some ["B"] :=
  addUser_twice_membership_exactly_second
    ⟨true, fun _ _ => none, fun _ _ => none⟩ ⟨true, fun _ _ => none, fun _ _ => none⟩
    ⟨[], [], "", [], false⟩
    ⟨"vless", "A", "user1", "id1", "", "", 0, false⟩
    ⟨"vless", "B", "user1", "id1", "", "", 0, false⟩
    "u" (.vless "user1" "id1" "") (.vless "user1" "id1" "")
    rfl rfl rfl rfl rfl rfl
    (by intro tags htags; simp [lookupA] at htags)

/-- Counterexample to C2: with the guard free, the controller believing the
engine NOT running, hash-checking enabled, no force-restart, and a manifest
matching the stored state, `Start` takes the skip path (`xray.go:310-326`) —
returning `isStarted:true` with the cached version without any engine
operation and without any health probe — even though the claim allows the
skip only when the controller believes the engine is Running and healthy. -/
theorem start_skip_when_offline_cx :
    startDecision true ⟨false, false, "1.8.4", false, ⟨[], [], "h", [], false⟩⟩
        ⟨⟨false, some ⟨"h", []⟩⟩⟩
      = .skipped { isStarted := true, version := some "1.8.4", error := none }
          ⟨false, false, "1.8.4", false, ⟨[], [], "h", [], false⟩⟩ ∧
    (⟨false, false, "1.8.4", false, ⟨[], [], "h", [], false⟩⟩ : XrayState).isXrayOnline
      = false := by
  decide

/-- C2 (amended): with the guard free, `Start` takes the skip path exactly
when a manifest was supplied, forceRestart is false, `IsNeedRestartCore` is
false, and the controller either believes the engine offline or has
hash-checking enabled; the skip response is always `started:true` with the
cached version, and the only state change on that path is marking the
controller offline after a failed probe. -/
theorem startDecision_skip_characterization (healthOk : Bool) (s : XrayState)
    (req : StartRequest) (hguard : s.isStartProcessing = false) :
    ((∃ resp st, startDecision healthOk s req = .skipped resp st) ↔
      (∃ h, req.internals.hashes = some h ∧ req.internals.forceRestart = false ∧
        s.internal.isNeedRestartCore h = false ∧
        (s.isXrayOnline = false ∨ s.disableHashedSetCheck = false))) ∧
    (∀ resp st, startDecision healthOk s req = .skipped resp st →
      resp = { isStarted := true, version := some s.cachedVersion, error := none } ∧
      (st = s ∨ st = { s with isXrayOnline := false })) := by
  constructor
  · rcases hh : req.internals.hashes with _ | h
    · simp [startDecision, hguard, hh, startSecondPhase]
    · by_cases hon : s.isXrayOnline <;> by_cases hdis : s.disableHashedSetCheck <;>
        by_cases hforce : req.internals.forceRestart = true <;>
        by_cases hneed : s.internal.isNeedRestartCore h = false <;>
        cases healthOk <;>
        simp_all [startDecision, hguard, startSecondPhase]
  · intro resp st hst
    rcases hh : req.internals.hashes with _ | h
    · simp_all [startDecision, hguard, startSecondPhase]
    · by_cases hon : s.isXrayOnline <;> by_cases hdis : s.disableHashedSetCheck <;>
        by_cases hforce : req.internals.forceRestart = true <;>
        by_cases hneed : s.internal.isNeedRestartCore h = false <;>
        cases healthOk <;>
        simp_all [startDecision, hguard, startSecondPhase]
      all_goals (rw [← hst.2]; exact hst.1.symm)

/-- Witness for C2 (amended): a Running controller with hash-checking enabled,
a healthy probe, and a matching manifest takes the skip path. -/
theorem startDecision_skip_characterization_witness :
    ∃ resp st, startDecision true ⟨false, true, "1.8.4", false, ⟨[], [], "h", [], false⟩⟩
        ⟨⟨false, some ⟨"h", []⟩⟩⟩ = .skipped resp st :=
  (startDecision_skip_characterization true
      ⟨false, true, "1.8.4", false, ⟨[], [], "h", [], false⟩⟩
      ⟨⟨false, some ⟨"h", []⟩⟩⟩ rfl).1.mpr
    ⟨⟨"h", []⟩, rfl, rfl, by decide, Or.inr rfl⟩

/-- Every run of the health-probe loop issues at most `fuel` queries. -/
theorem healthAttempts_queries_le (ok c : Nat → Bool) :
    ∀ f a, (healthAttempts ok c a f).2 ≤ f := by
  intro f
  induction f with
  | zero => intro a; simp [healthAttempts]
  | succ n ih =>
    intro a
    by_cases h1 : ok a
    · simp [healthAttempts, h1]
    · by_cases h2 : n = 0
      · simp [healthAttempts, h1, h2]
      · by_cases h3 : c a
        · simp [healthAttempts, h1, h2, h3]
        · simp only [healthAttempts, h1, h2, h3, if_false, Bool.false_eq_true]
          simpa using Nat.succ_le_succ (ih (a + 1))

/-- With every attempt failing and no cancellation, the probe loop exhausts
its whole budget. -/
theorem healthAttempts_all_fail (ok c : Nat → Bool) (h1 : ∀ i, ok i = false)
    (h2 : ∀ i, c i = false) : ∀ f a, 1 ≤ f → healthAttempts ok c a f = (false, f) := by
  intro f
  induction f with
  | zero => intro a h; omega
  | succ n ih =>
    intro a _
    by_cases hn : n = 0
    · subst hn
      simp [healthAttempts, h1 a]
    · have hrec := ih (a + 1) (by omega)
      simp [healthAttempts, h1 a, hn, h2 a, hrec]

/-- Counterexample to C7: the skip-restart decision's health probe is the
same retrying `checkXrayHealth` as post-start verification.  With the guard
free, the controller believing the engine Running, hash-checking enabled and
a manifest supplied, an oracle whose first status query fails and second
succeeds makes the skip-decision probe issue **2** status queries — not the
single non-retrying query the claim describes. -/
theorem start_skip_probe_retries_cx :
    (startDecisionProbed true (fun i => i == 2) (fun _ => false)
        ⟨false, true, "1.8.4", false, ⟨[], [], "h", [], false⟩⟩
        ⟨⟨false, some ⟨"h", []⟩⟩⟩).2 = 2 := by
  decide

/-- C7 (amended): both probe call sites share `checkXrayHealth`, whose single
invocation issues at most 10 status queries (2 seconds apart per
`retryInterval`), returns immediately on a first-attempt success, and
exhausts exactly 10 attempts when every query fails without cancellation;
each invocation starts a fresh budget, so the two uses remain independent. -/
theorem checkXrayHealth_shared_retry_budget (attemptOk cancelled : Nat → Bool) :
    (checkXrayHealth true attemptOk cancelled).2 ≤ 10 ∧
    (attemptOk 1 = true → checkXrayHealth true attemptOk cancelled = (true, 1)) ∧
    ((∀ i, attemptOk i = false) → (∀ i, cancelled i = false) →
      checkXrayHealth true attemptOk cancelled = (false, 10)) ∧
    healthRetryIntervalSeconds = 2 := by
  refine ⟨?_, ?_, ?_, rfl⟩
  · simpa [checkXrayHealth] using healthAttempts_queries_le attemptOk cancelled 10 1
  · intro h
    simp [checkXrayHealth, healthAttempts, h]
  · intro h1 h2
    simpa [checkXrayHealth] using healthAttempts_all_fail attemptOk cancelled h1 h2 10 1 (by omega)

/-- Witness for C7 (amended): an always-failing, never-cancelled oracle makes
the probe use its full 10-attempt budget. -/
theorem checkXrayHealth_shared_retry_budget_witness :
    checkXrayHealth true (fun _ => false) (fun _ => false) = (false, 10) ∧
    (fun _ : Nat => false) 1 = false :=
  ⟨(checkXrayHealth_shared_retry_budget (fun _ => false) (fun _ => false)).2.2.1
      (fun _ => rfl) (fun _ => rfl), rfl⟩

end Remna
